import Mathlib

/-!
Verification development for the Windows 11 release-detection script
(`scripts/release_detector.py`).  The Python source is shallowly embedded:
pure helpers become Lean functions over `List Char` / `String`, the stateful
`detect_new_releases` becomes an explicit state-passing function, and the
wall clock, the file system and the network are passed in as explicit
parameters.  All definitions follow the source line by line; spec-side
definitions used only to state properties are marked as such.
-/

/-! ## Character classes (ASCII fragment of the Python `re` classes) -/

/-- Characters of the regex class `\s` (ASCII fragment; Python additionally
matches non-ASCII unicode whitespace, which the titles here never contain). -/
def isSpaceC (c : Char) : Bool :=
  c = ' ' || c = '\t' || c = '\n' || c = '\r' || c = '\x0b' || c = '\x0c'

/-- Characters of the regex class `\d` (ASCII fragment). -/
def isDigitC (c : Char) : Bool :=
  '0' ≤ c && c ≤ '9'

/-- Characters of the regex class `\w` (ASCII fragment), used for `\b`. -/
def isWordC (c : Char) : Bool :=
  ('a' ≤ c && c ≤ 'z') || ('A' ≤ c && c ≤ 'Z') || isDigitC c || c = '_'

/-! ## Substring search (Python `in` on `str`) -/

/-- Does `n` occur at the head of `h`? -/
def headMatches : List Char → List Char → Bool
  | [], _ => true
  | _ :: _, [] => false
  | n :: ns, h :: hs => n = h && headMatches ns hs

/-- Python `needle in hay` for strings: substring occurrence. -/
def listContains (needle : List Char) : List Char → Bool
  | [] => needle.isEmpty
  | h :: hs => headMatches needle (h :: hs) || listContains needle hs

/-! ## The classifier `_extract_version` (release_detector.py lines 203-240)

The two `version_patterns` regexes and the build-number regex are embedded as
leftmost-match scanners, exactly mirroring `re.search` semantics on them:
`re.search` tries the pattern at every index from the left and returns the
first success, and for these patterns greedy matching never needs to
backtrack (`\s+` is followed by `\d`, and `\s`, `\d` are disjoint). -/

/-- Match the characters of `pat` case-insensitively at the head of `l`,
returning the remaining input (the `version` literal with `re.IGNORECASE`). -/
def dropLitCI : List Char → List Char → Option (List Char)
  | [], l => some l
  | _ :: _, [] => none
  | p :: ps, c :: cs => if c.toLower = p.toLower then dropLitCI ps cs else none

/-- Match `\d\d[Hh]\d` at the head of the input, capturing the four
characters (the group `(\d{2}H\d)` under `re.IGNORECASE`). -/
def matchDdHd : List Char → Option (List Char)
  | d1 :: d2 :: h :: d3 :: _ =>
    if isDigitC d1 && isDigitC d2 && (h.toLower = 'h') && isDigitC d3 then
      some [d1, d2, h, d3]
    else none
  | _ => none

/-- After the literal `version` and one whitespace character: consume the
rest of the `\s+` run, then require the `(\d{2}H\d)` group. -/
def matchDigitsAfterSpaces : List Char → Option (List Char)
  | [] => none
  | c :: cs =>
    if isSpaceC c then matchDigitsAfterSpaces cs else matchDdHd (c :: cs)

/-- Try the regex `version\s+(\d{2}H\d)` (IGNORECASE) anchored at the head
of `l`, returning the captured group. -/
def matchVersionTokenAt (l : List Char) : Option (List Char) :=
  match dropLitCI "version".data l with
  | none => none
  | some rest =>
    match rest with
    | [] => none
    | c :: cs => if isSpaceC c then matchDigitsAfterSpaces cs else none

/-- Leftmost match of `version\s+(\d{2}H\d)` (IGNORECASE): the first
position, scanning from the left, where the anchored match succeeds. -/
def searchVersionToken : List Char → Option (List Char)
  | [] => none
  | c :: cs =>
    match matchVersionTokenAt (c :: cs) with
    | some g => some g
    | none => searchVersionToken cs

/-- Try the regex `\b(\d{2}H\d)\b` (IGNORECASE) anchored at the head of `l`;
`prevIsWord` tells whether the character before `l` is a word character
(the first matched character is a digit, hence a word character, so the
left boundary holds iff the previous character is not a word character). -/
def matchStandaloneAt (prevIsWord : Bool) (l : List Char) : Option (List Char) :=
  if prevIsWord then none
  else
    match l with
    | d1 :: d2 :: h :: d3 :: rest =>
      if isDigitC d1 && isDigitC d2 && (h.toLower = 'h') && isDigitC d3 &&
         (match rest with | [] => true | c :: _ => !isWordC c) then
        some [d1, d2, h, d3]
      else none
    | _ => none

/-- Scan for `\b(\d{2}H\d)\b`, carrying whether the previous character was a
word character. -/
def searchStandaloneAux (prevIsWord : Bool) : List Char → Option (List Char)
  | [] => none
  | c :: cs =>
    match matchStandaloneAt prevIsWord (c :: cs) with
    | some g => some g
    | none => searchStandaloneAux (isWordC c) cs

/-- Leftmost match of `\b(\d{2}H\d)\b` (IGNORECASE) in the whole input. -/
def searchStandalone (l : List Char) : Option (List Char) :=
  searchStandaloneAux false l

/-- Numeric value of a run of ASCII digits (Python `int` on a digit string). -/
def natOfDigits (l : List Char) : Nat :=
  l.foldl (fun a c => a * 10 + (c.toNat - 48)) 0

/-- Try the regex `\((\d{5})` anchored at the head of `l`, returning the
numeric value of the captured five digits. -/
def matchBuildAt : List Char → Option Nat
  | '(' :: d1 :: d2 :: d3 :: d4 :: d5 :: _ =>
    if isDigitC d1 && isDigitC d2 && isDigitC d3 && isDigitC d4 && isDigitC d5 then
      some (natOfDigits [d1, d2, d3, d4, d5])
    else none
  | _ => none

/-- Leftmost match of `\((\d{5})`, as `int(build_match.group(1))`. -/
def searchBuild : List Char → Option Nat
  | [] => none
  | c :: cs =>
    match matchBuildAt (c :: cs) with
    | some n => some n
    | none => searchBuild cs

/-- The build-number range table of `_extract_version` (lines 222-234),
checked in source order; `none` when the chain falls through. -/
def versionFromBuild (n : Nat) : Option String :=
  if 26200 ≤ n ∧ n < 27000 then some "25H2"
  else if 26100 ≤ n ∧ n < 26200 then some "24H2"
  else if 26220 ≤ n ∧ n < 27000 then some "Insider-26H2"
  else if 28000 ≤ n ∧ n < 29000 then some "Insider-28xxx"
  else if 22621 ≤ n ∧ n < 23000 then some "22H2"
  else if 22631 ≤ n ∧ n < 23000 then some "23H2"
  else none

/-- Python `str.upper()` on the captured group (ASCII fragment). -/
def toUpperL (l : List Char) : List Char :=
  l.map Char.toUpper

/-- Python `str.lower()` on the title (ASCII fragment). -/
def toLowerL (l : List Char) : List Char :=
  l.map Char.toLower

/-- The tail of `_extract_version` (lines 236-240): `Insider-Preview` when
the lowercased title contains `insider` or `preview`, else `Unknown`. -/
def fallbackInsider (title : List Char) : List Char :=
  if listContains "insider".data (toLowerL title) ||
     listContains "preview".data (toLowerL title) then
    "Insider-Preview".data
  else
    "Unknown".data

/-- `ReleaseDetector._extract_version` on the character list of the title:
explicit `version NNHN` pattern first, then a standalone `NNHN` token, then
the parenthesised five-digit build-number table, then the insider/preview
fallback, else `Unknown`. -/
def extractVersionL (title : List Char) : List Char :=
  match searchVersionToken title with
  | some g => toUpperL g
  | none =>
    match searchStandalone title with
    | some g => toUpperL g
    | none =>
      match searchBuild title with
      | some n =>
        match versionFromBuild n with
        | some v => v.data
        | none => fallbackInsider title
      | none => fallbackInsider title

/-- `ReleaseDetector._extract_version` (release_detector.py lines 203-240). -/
def extractVersion (title : String) : String :=
  String.mk (extractVersionL title.data)

/-! ## Data model

`WindowsRelease` mirrors the `@dataclass WindowsRelease` (lines 27-40).
Timestamps (`detected_date`, `last_check`) are modelled as integer clock
readings in seconds: the Python code stores `datetime.now().isoformat()`
strings and compares differences against `timedelta(hours=1)`, which is
`now - t < 3600` on the second scale. -/

structure WindowsRelease where
  build_id : Option String
  build_number : String
  version : String
  title : String
  iso_url : String
  detected_date : Int
  architecture : String
  channel : String
  language : String
  checksum_sha256 : Option String
  size_bytes : Option Int
deriving DecidableEq, Repr

/-- The in-memory tracking state `self.tracked_data`: the `builds` dict is an
insertion-ordered association list keyed by `build_id` (a Python dict), the
stored value being `asdict(release)`, i.e. the record itself.  Keys are
`Option String` because `build.get('uuid')` may be `None`. -/
structure TrackedData where
  builds : List (Option String × WindowsRelease)
  last_check : Option Int
  check_count : Nat
deriving DecidableEq, Repr

/-- Python dict lookup `d[k]` / `d.get(k)` on an association list. -/
def lookupA {κ α : Type} [DecidableEq κ] : List (κ × α) → κ → Option α
  | [], _ => none
  | (k, v) :: rest, k2 => if k = k2 then some v else lookupA rest k2

/-- Python dict assignment `d[k] = v` on an insertion-ordered association
list: replace in place when the key is present, else append. -/
def upsert {κ α : Type} [DecidableEq κ] : List (κ × α) → κ → α → List (κ × α)
  | [], k, v => [(k, v)]
  | (k1, v1) :: rest, k, v =>
    if k1 = k then (k1, v) :: rest else (k1, v1) :: upsert rest k v

/-- The dict comprehension of line 271,
`unique_releases = \x7br.build_id: r for r in all_releases\x7d`. -/
def dedupById (rs : List WindowsRelease) : List (Option String × WindowsRelease) :=
  rs.foldl (fun m r => upsert m r.build_id r) []

/-- One source invocation: either the returned list or a raised exception
(lines 262-268 catch the latter and let the loop continue). -/
def collectSources (sources : List (Except String (List WindowsRelease))) :
    List WindowsRelease :=
  sources.foldl (fun acc s => match s with | .ok rs => acc ++ rs | .error _ => acc) []

/-- `ReleaseDetector._save_tracked` (lines 70-78): stamp the clock, bump the
counter, write the state back whole. -/
def saveTracked (now : Int) (d : TrackedData) : TrackedData :=
  { d with last_check := some now, check_count := d.check_count + 1 }

/-- The rate-limit test of lines 253-255: `not force` and a truthy
`last_check` less than one hour old. -/
def shouldSkip (force : Bool) (now : Int) (state : TrackedData) : Bool :=
  !force && (match state.last_check with
             | some t => decide (now - t < 3600)
             | none => false)

/-- Observable outcome of one `detect_new_releases` call: the returned list,
the detector state afterwards, how many times `_save_tracked` ran, and how
many sources were invoked. -/
structure DetectResult where
  newReleases : List WindowsRelease
  finalState : TrackedData
  saveCount : Nat
  sourcesInvoked : Nat
deriving DecidableEq, Repr

/-- The non-short-circuit body of `detect_new_releases` (lines 259-280):
collect from every source, deduplicate by `build_id`, write every retained
release into `tracked_data['builds']`, save once, return the values. -/
def detectCore (now : Int) (state : TrackedData)
    (sources : List (Except String (List WindowsRelease))) : DetectResult :=
  let allReleases := collectSources sources
  let unique := dedupById allReleases
  let builds2 := (unique.map Prod.snd).foldl
    (fun b r => upsert b r.build_id r) state.builds
  { newReleases := unique.map Prod.snd
    finalState := saveTracked now { state with builds := builds2 }
    saveCount := 1
    sourcesInvoked := sources.length }

/-- `ReleaseDetector.detect_new_releases` (lines 242-280). -/
def detectNewReleases (force : Bool) (now : Int) (state : TrackedData)
    (sources : List (Except String (List WindowsRelease))) : DetectResult :=
  if shouldSkip force now state then
    { newReleases := [], finalState := state, saveCount := 0, sourcesInvoked := 0 }
  else
    detectCore now state sources

/-! ## The tracking-file loader `_load_tracked` (lines 55-68)

The loader is modelled over a JSON value type and an explicit read outcome:
the file may be absent, hold syntactically invalid JSON (the caught
`json.JSONDecodeError`), or parse to an arbitrary JSON value. -/

/-- JSON values, as `json.load` produces them. -/
inductive JsonVal where
  | null : JsonVal
  | bool : Bool → JsonVal
  | num : Int → JsonVal
  | str : String → JsonVal
  | arr : List JsonVal → JsonVal
  | obj : List (String × JsonVal) → JsonVal

/-- Outcome of reading and parsing the tracking file. -/
inductive FileRead where
  | absent : FileRead
  | invalidJson : FileRead
  | parsed : JsonVal → FileRead

/-- The fresh empty state of lines 64-68. -/
def freshTracked : JsonVal :=
  JsonVal.obj [("builds", JsonVal.obj []),
               ("last_check", JsonVal.null),
               ("check_count", JsonVal.num 0)]

/-- `ReleaseDetector._load_tracked` (lines 55-68): return whatever the file
parses to; fall back to the fresh state when the file is absent or
`json.load` raises `json.JSONDecodeError`. -/
def loadTracked : FileRead → JsonVal
  | .absent => freshTracked
  | .invalidJson => freshTracked
  | .parsed j => j

/-! ## The UUP Dump fetcher `_check_uupdump` (lines 80-182)

The network and JSON layers are passed in as the already-validated
`builds_data` dict (an association list from string keys to build entries);
the validation ladder of lines 100-118 only decides whether that dict is
reached at all, and every failure path returns `[]`. -/

/-- One entry of `builds_data`, holding the fields the loop reads via
`build.get(...)` (absent `uuid`/`build` yield `None` / the default). -/
structure BuildEntry where
  uuid : Option String
  title : String
  arch : String
  build : Option String
deriving DecidableEq, Repr

/-- Python `str.isdigit()` (ASCII fragment): non-empty and all digits. -/
def strIsDigit (s : String) : Bool :=
  !s.data.isEmpty && s.data.all isDigitC

/-- The sort key of line 127: `int(x) if x.isdigit() else 0`. -/
def keyOfStr (s : String) : Nat :=
  if strIsDigit s then natOfDigits s.data else 0

/-- Stable insertion into an ascending run, keyed by `keyOfStr`. -/
def insKey (x : String) : List String → List String
  | [] => [x]
  | y :: ys => if keyOfStr x ≤ keyOfStr y then x :: y :: ys else y :: insKey x ys

/-- The stable ascending sort of line 127 (`sorted(builds_data.keys(), key=...)`). -/
def sortKeys : List String → List String
  | [] => []
  | x :: xs => insKey x (sortKeys xs)

/-- The download URL template of line 157; Python interpolates `None` as the
literal string `None`. -/
def mkIsoUrl (uuid : Option String) : String :=
  "https://uupdump.net/download.php?id=" ++
    (match uuid with | some s => s | none => "None") ++
    "&pack=en-us&edition=professional"

/-- One iteration of the loop of lines 129-164: look the key up, apply the
title/architecture filter, skip identifiers already tracked, else build the
release record. -/
def processKey (tracked : TrackedData) (buildsData : List (String × BuildEntry))
    (now : Int) (key : String) : Option WindowsRelease :=
  match lookupA buildsData key with
  | none => none
  | some b =>
    if ¬ (listContains "Windows 11".data b.title.data = true) ∨ b.arch ≠ "amd64" then
      none
    else if b.uuid ∈ tracked.builds.map Prod.fst then
      none
    else
      some { build_id := b.uuid
             build_number := b.build.getD "Unknown"
             version := extractVersion b.title
             title := b.title
             iso_url := mkIsoUrl b.uuid
             detected_date := now
             architecture := b.arch
             channel := if listContains "Insider".data b.title.data then "insider" else "retail"
             language := "en-us"
             checksum_sha256 := none
             size_bytes := none }

/-- `ReleaseDetector._check_uupdump` (lines 80-182) after a well-shaped API
response: sort the keys numerically ascending, take the first 30, process
each. -/
def checkUupdump (tracked : TrackedData) (buildsData : List (String × BuildEntry))
    (now : Int) : List WindowsRelease :=
  ((sortKeys (buildsData.map Prod.fst)).take 30).filterMap
    (processKey tracked buildsData now)

/-! ## The matrix generator `generate_matrix` (lines 282-307) -/

/-- One element of `matrix['include']`. -/
structure MatrixEntry where
  version : String
  build : String
  iso_url : String
  build_type : String
  edition : Nat
  edition_name : String
  title : String
deriving DecidableEq, Repr

/-- The slug of line 304:
`title.replace(' ', '_').replace('(', '').replace(')', '')`. -/
def slugify (t : String) : String :=
  String.mk ((((t.data.map (fun c => if c = ' ' then '_' else c)).filter
    (fun c => c ≠ '(')).filter (fun c => c ≠ ')')))

/-- `ReleaseDetector.generate_matrix` (lines 282-307), returned as the
`include` list of the matrix dictionary. -/
def generateMatrix (rs : List WindowsRelease) : List MatrixEntry :=
  rs.flatMap (fun r =>
    ["standard", "core", "nano"].flatMap (fun bt =>
      [1, 6].map (fun ed =>
        { version := r.version
          build := r.build_number
          iso_url := r.iso_url
          build_type := bt
          edition := ed
          edition_name := if ed = 1 then "Home" else "Pro"
          title := slugify r.title })))

/-! ## Spec-side definitions -/

/-- Modelled from the spec: the element of `l` that satisfies `p` and was
produced last in iteration order (the value a repeated dict key ends up
with).  Used only to state last-seen-wins properties. -/
def lastWith {α : Type} (p : α → Prop) [DecidablePred p] (l : List α) : Option α :=
  l.foldl (fun acc x => if p x then some x else acc) none

/-! ## Concrete data used by witnesses and counterexamples -/

/-- State whose last check is at clock 0, used for the C1 counterexample. -/
def c1State : TrackedData :=
  { builds := [], last_check := some 0, check_count := 5 }

/-- State with no recorded check, used for the C1 witness. -/
def c1wState : TrackedData :=
  { builds := [], last_check := none, check_count := 7 }

/-- A release whose identifier is already tracked, for the C2 counterexample. -/
def c2Rel : WindowsRelease :=
  { build_id := some "abc", build_number := "100", version := "24H2"
    title := "Windows 11 version 24H2", iso_url := "u", detected_date := 0
    architecture := "amd64", channel := "retail", language := "en-us"
    checksum_sha256 := none, size_bytes := none }

/-- Tracking state that already holds the identifier of `c2Rel`. -/
def c2State : TrackedData :=
  { builds := [(some "abc", c2Rel)], last_check := none, check_count := 0 }

/-- A previously tracked release with identifier `u1`, for the C2 witness. -/
def c2aRelOld : WindowsRelease :=
  { build_id := some "u1", build_number := "b1", version := "Unknown"
    title := "Windows 11 a", iso_url := "u", detected_date := 0
    architecture := "amd64", channel := "retail", language := "en-us"
    checksum_sha256 := none, size_bytes := none }

/-- Tracking state holding `u1`, for the C2 witness. -/
def c2aState : TrackedData :=
  { builds := [(some "u1", c2aRelOld)], last_check := none, check_count := 0 }

/-- Two API build entries, one already tracked, for the C2 witness. -/
def c2aBuilds : List (String × BuildEntry) :=
  [("1", { uuid := some "u1", title := "Windows 11 a", arch := "amd64", build := some "b1" }),
   ("2", { uuid := some "u2", title := "Windows 11 b", arch := "amd64", build := some "b2" })]

/-- The release the fetcher constructs for the untracked entry `u2`. -/
def c2aNew : WindowsRelease :=
  { build_id := some "u2", build_number := "b2", version := "Unknown"
    title := "Windows 11 b"
    iso_url := "https://uupdump.net/download.php?id=u2&pack=en-us&edition=professional"
    detected_date := 0, architecture := "amd64", channel := "retail", language := "en-us"
    checksum_sha256 := none, size_bytes := none }

/-- State whose last check is at clock 0, used for the C5 witness. -/
def c5State : TrackedData :=
  { builds := [], last_check := some 0, check_count := 3 }

/-- First release with identifier `a`, for the C6 witness. -/
def c6RelA1 : WindowsRelease :=
  { build_id := some "a", build_number := "1", version := "24H2"
    title := "first", iso_url := "u1", detected_date := 0
    architecture := "amd64", channel := "retail", language := "en-us"
    checksum_sha256 := none, size_bytes := none }

/-- Release with identifier `b`, for the C6 witness. -/
def c6RelB : WindowsRelease :=
  { build_id := some "b", build_number := "2", version := "24H2"
    title := "other", iso_url := "u2", detected_date := 0
    architecture := "amd64", channel := "retail", language := "en-us"
    checksum_sha256 := none, size_bytes := none }

/-- Second release with identifier `a` but a different title, produced by a
later source, for the C6 witness. -/
def c6RelA2 : WindowsRelease :=
  { build_id := some "a", build_number := "1", version := "24H2"
    title := "second", iso_url := "u1", detected_date := 0
    architecture := "amd64", channel := "retail", language := "en-us"
    checksum_sha256 := none, size_bytes := none }

/-- Two sources that disagree on identifier `a`, for the C6 witness. -/
def c6Sources : List (Except String (List WindowsRelease)) :=
  [Except.ok [c6RelA1, c6RelB], Except.ok [c6RelA2]]

/-- Empty tracking state for the C6 witness. -/
def c6State : TrackedData :=
  { builds := [], last_check := none, check_count := 0 }

/-- A single release fed to the matrix generator, for the C7 witness. -/
def c7Rel : WindowsRelease :=
  { build_id := some "x", build_number := "26100.1", version := "24H2"
    title := "Windows 11 (26100)", iso_url := "http://e", detected_date := 0
    architecture := "amd64", channel := "retail", language := "en-us"
    checksum_sha256 := none, size_bytes := none }

/-- The first matrix entry generated from `c7Rel`, for the C7 witness. -/
def c7Entry : MatrixEntry :=
  { version := "24H2", build := "26100.1", iso_url := "http://e"
    build_type := "standard", edition := 1, edition_name := "Home"
    title := "Windows_11_26100" }

/-! ## Claim C3 — the tracking-file loader -/

/-- Claim C3 counterexample: a tracking file holding the syntactically valid
JSON list `[]` is returned as-is by `_load_tracked`, not replaced by the
fresh empty state — only a `json.JSONDecodeError` triggers the fallback. -/
theorem loadTracked_list_cex :
    loadTracked (FileRead.parsed (JsonVal.arr [])) = JsonVal.arr [] ∧
    JsonVal.arr [] ≠ freshTracked := by
  refine ⟨rfl, ?_⟩
  intro h
  rw [freshTracked] at h
  exact JsonVal.noConfusion h

/-- Claim C3 (corrected): `_load_tracked` is a total function of the read
outcome (it never raises) and returns the fresh empty state — zero counter,
null last-check, empty identifier map — exactly when the file is absent or
its content is not syntactically valid JSON; a syntactically valid JSON
value of any shape, a JSON list included, is returned unchanged. -/
theorem loadTracked_spec :
    loadTracked FileRead.absent = freshTracked ∧
    loadTracked FileRead.invalidJson = freshTracked ∧
    ∀ j, loadTracked (FileRead.parsed j) = j :=
  ⟨rfl, rfl, fun _ => rfl⟩

/-! ## Claim C5 — the rate limit -/

/-- Claim C5 (confirmed): when the last check is less than one hour old, a
non-forced `detect_new_releases` call short-circuits: it returns the empty
list, invokes no source, performs no save, and leaves the state unchanged. -/
theorem detect_rate_limit_skip (now t : Int) (state : TrackedData)
    (sources : List (Except String (List WindowsRelease)))
    (h1 : state.last_check = some t) (h2 : now - t < 3600) :
    detectNewReleases false now state sources =
      { newReleases := [], finalState := state, saveCount := 0, sourcesInvoked := 0 } := by
  have hs : shouldSkip false now state = true := by
    simp [shouldSkip, h1, h2]
  simp [detectNewReleases, hs]

/-- Claim C5 witness: a concrete skipped call, one hundred seconds after the
recorded check. -/
theorem detect_rate_limit_skip_witness :
    detectNewReleases false 100 c5State [] =
      { newReleases := [], finalState := c5State, saveCount := 0, sourcesInvoked := 0 } :=
  detect_rate_limit_skip 100 0 c5State [] rfl (by decide)

/-! ## Claim C1 — persistence of the tracking state -/

/-- Claim C1 counterexample: a non-forced call one second after the last
check short-circuits and never reaches `_save_tracked`: the save count is 0
and the check counter keeps its old value 5, contradicting the claim that
the state is persisted (with a bumped counter) even on the short-circuit
path. -/
theorem detect_shortcircuit_no_save_cex :
    (detectNewReleases false 1 c1State []).saveCount = 0 ∧
    (detectNewReleases false 1 c1State []).finalState.check_count = 5 := by
  decide

/-- Claim C1 (corrected): every `detect_new_releases` call that does not
short-circuit saves the tracking state exactly once at the end, bumping the
check counter and stamping the last-check time; a call that short-circuits
because the last check is under one hour old performs no save at all and
leaves the state untouched. -/
theorem detect_save_once_unless_skipped (force : Bool) (now : Int)
    (state : TrackedData) (sources : List (Except String (List WindowsRelease))) :
    (shouldSkip force now state = false →
      (detectNewReleases force now state sources).saveCount = 1 ∧
      (detectNewReleases force now state sources).finalState.check_count
        = state.check_count + 1 ∧
      (detectNewReleases force now state sources).finalState.last_check = some now) ∧
    (shouldSkip force now state = true →
      (detectNewReleases force now state sources).saveCount = 0 ∧
      (detectNewReleases force now state sources).finalState = state) := by
  constructor
  · intro h
    simp [detectNewReleases, h, detectCore, saveTracked]
  · intro h
    simp [detectNewReleases, h]

/-- Claim C1 witness: a concrete forced call on a state with no prior check
saves once and bumps the counter from 7 to 8. -/
theorem detect_save_once_unless_skipped_witness :
    (detectNewReleases true 5 c1wState []).saveCount = 1 ∧
    (detectNewReleases true 5 c1wState []).finalState.check_count = 8 ∧
    (detectNewReleases true 5 c1wState []).finalState.last_check = some 5 :=
  (detect_save_once_unless_skipped true 5 c1wState []).1 (by decide)

/-! ## Claim C2 — who drops already-tracked builds -/

/-- Claim C2 counterexample: a source that directly yields a release whose
identifier `abc` is already in the tracking state at the start of the call
still has that release returned by `detect_new_releases`: the aggregation
step deduplicates within the call only and performs no tracked-identifier
filtering. -/
theorem aggregator_keeps_tracked_cex :
    (some "abc") ∈ c2State.builds.map Prod.fst ∧
    c2Rel ∈ (detectNewReleases true 0 c2State [Except.ok [c2Rel]]).newReleases := by
  decide

/-! ## Claims C4, C8, C9, C10 — the classifier -/

theorem matchDdHd_ne_nil {l g : List Char} (h : matchDdHd l = some g) : g ≠ [] := by
  rcases l with _ | ⟨d1, _ | ⟨d2, _ | ⟨hh, _ | ⟨d3, rest⟩⟩⟩⟩ <;>
    simp [matchDdHd] at h
  rcases h with ⟨-, h2⟩
  rw [← h2]
  simp

theorem matchDigitsAfterSpaces_ne_nil : ∀ {l g : List Char},
    matchDigitsAfterSpaces l = some g → g ≠ [] := by
  intro l
  induction l with
  | nil => intro g h; exact Option.noConfusion h
  | cons c cs ih =>
    intro g h
    simp only [matchDigitsAfterSpaces] at h
    split at h
    · exact ih h
    · exact matchDdHd_ne_nil h

theorem matchVersionTokenAt_ne_nil {l g : List Char}
    (h : matchVersionTokenAt l = some g) : g ≠ [] := by
  unfold matchVersionTokenAt at h
  split at h
  · exact Option.noConfusion h
  · split at h
    · exact Option.noConfusion h
    · split at h
      · exact matchDigitsAfterSpaces_ne_nil h
      · exact Option.noConfusion h

theorem searchVersionToken_ne_nil : ∀ {l g : List Char},
    searchVersionToken l = some g → g ≠ [] := by
  intro l
  induction l with
  | nil => intro g h; exact Option.noConfusion h
  | cons c cs ih =>
    intro g h
    simp only [searchVersionToken] at h
    split at h
    · rename_i g0 heq
      injection h with h2
      exact h2 ▸ matchVersionTokenAt_ne_nil heq
    · exact ih h

theorem matchStandaloneAt_ne_nil {b : Bool} {l g : List Char}
    (h : matchStandaloneAt b l = some g) : g ≠ [] := by
  unfold matchStandaloneAt at h
  split at h
  · exact Option.noConfusion h
  · split at h
    · split at h
      · injection h with h2
        rw [← h2]
        simp
      · exact Option.noConfusion h
    · exact Option.noConfusion h

theorem searchStandaloneAux_ne_nil : ∀ {l : List Char} {b : Bool} {g : List Char},
    searchStandaloneAux b l = some g → g ≠ [] := by
  intro l
  induction l with
  | nil => intro b g h; exact Option.noConfusion h
  | cons c cs ih =>
    intro b g h
    simp only [searchStandaloneAux] at h
    split at h
    · rename_i g0 heq
      injection h with h2
      exact h2 ▸ matchStandaloneAt_ne_nil heq
    · exact ih h

theorem versionFromBuild_ne_nil {n : Nat} {v : String}
    (h : versionFromBuild n = some v) : v.data ≠ [] := by
  unfold versionFromBuild at h
  split_ifs at h <;>
    first
      | exact Option.noConfusion h
      | (injection h with h2; rw [← h2]; decide)

theorem fallbackInsider_ne_nil (t : List Char) : fallbackInsider t ≠ [] := by
  unfold fallbackInsider
  split <;> decide

theorem toUpperL_ne_nil {l : List Char} (h : l ≠ []) : toUpperL l ≠ [] := by
  simpa [toUpperL] using h

theorem extractVersionL_ne_nil (t : List Char) : extractVersionL t ≠ [] := by
  unfold extractVersionL
  split
  · rename_i g heq
    exact toUpperL_ne_nil (searchVersionToken_ne_nil heq)
  · split
    · rename_i g heq
      exact toUpperL_ne_nil (searchStandaloneAux_ne_nil heq)
    · split
      · split
        · rename_i heq2
          exact versionFromBuild_ne_nil heq2
        · exact fallbackInsider_ne_nil t
      · exact fallbackInsider_ne_nil t

theorem mkStr_ne_empty {l : List Char} (h : l ≠ []) : String.mk l ≠ "" :=
  fun he => h (congrArg String.data he)

/-- Claim C4 (confirmed): the classifier is a total function of its input
(it never raises) and always returns a non-empty string; when no version
pattern matches, no parenthesised five-digit build number lies in a known
range, and the title contains neither `insider` nor `preview`, it returns
the explicit `Unknown` label. -/
theorem extractVersion_total_unknown (title : String) :
    extractVersion title ≠ "" ∧
    (searchVersionToken title.data = none →
     searchStandalone title.data = none →
     (searchBuild title.data).bind versionFromBuild = none →
     listContains "insider".data (toLowerL title.data) = false →
     listContains "preview".data (toLowerL title.data) = false →
     extractVersion title = "Unknown") := by
  constructor
  · exact mkStr_ne_empty (extractVersionL_ne_nil title.data)
  · intro h1 h2 h3 h4 h5
    unfold extractVersion extractVersionL
    rw [h1, h2]
    cases hb : searchBuild title.data with
    | none => simp [fallbackInsider, h4, h5]
    | some n =>
      rw [hb] at h3
      simp only [Option.some_bind] at h3
      simp [h3, fallbackInsider, h4, h5]

/-- Claim C4 witness: a title with no pattern at all classifies as Unknown
and the returned string is non-empty. -/
theorem extractVersion_total_unknown_witness :
    extractVersion "Hello World" ≠ "" ∧ extractVersion "Hello World" = "Unknown" :=
  ⟨(extractVersion_total_unknown "Hello World").1,
   (extractVersion_total_unknown "Hello World").2 (by decide) (by decide) (by decide)
     (by decide) (by decide)⟩

/-- Claim C8 counterexample: the title `version 23h2 version 24H2` contains
the token `version 24H2`, yet the classifier returns `23H2`: `re.search`
takes the leftmost match of the version pattern, so surrounding text that
itself contains an earlier version token changes the result. -/
theorem extractVersion_earlier_token_cex :
    listContains "version 24H2".data "version 23h2 version 24H2".data = true ∧
    extractVersion "version 23h2 version 24H2" ≠ "24H2" := by
  decide

/-- Claim C8 (corrected): whenever the leftmost case-insensitive match of the
pattern `version` + whitespace + two digits, `H`, one digit captures the
token `24H2` in any letter case — in particular when `version 24H2` is the
first such occurrence in the title — the classifier returns exactly the
uppercased string `24H2`; an earlier occurrence of the pattern elsewhere in
the title wins otherwise. -/
theorem extractVersion_version24H2 (title : String) (g : List Char)
    (h1 : searchVersionToken title.data = some g)
    (h2 : toUpperL g = "24H2".data) :
    extractVersion title = "24H2" := by
  simp only [extractVersion, extractVersionL, h1]
  rw [h2]

/-- Claim C8 witness: a concrete title whose first version-pattern match is
a lower-case `24h2` after an upper-case `VERSION` and a double space. -/
theorem extractVersion_version24H2_witness :
    extractVersion "My WINDOWS VERSION  24h2 build" = "24H2" :=
  extractVersion_version24H2 "My WINDOWS VERSION  24h2 build"
    ['2', '4', 'h', '2'] (by decide) (by decide)

/-- Claim C9 (confirmed): with no explicit version token, a parenthesised
build number in 26220-26999 classifies as `25H2` — the `25H2` range
26200-26999 is checked first, so the overlapping `Insider-26H2` branch is
never taken (for any build number at all) — and one in 26100-26199
classifies as `24H2`. -/
theorem extractVersion_range_precedence (title : String) (n : Nat)
    (h1 : searchVersionToken title.data = none)
    (h2 : searchStandalone title.data = none)
    (h3 : searchBuild title.data = some n) :
    (26220 ≤ n ∧ n < 27000 → extractVersion title = "25H2") ∧
    (26100 ≤ n ∧ n < 26200 → extractVersion title = "24H2") ∧
    (∀ m : Nat, versionFromBuild m ≠ some "Insider-26H2") := by
  refine ⟨?_, ?_, ?_⟩
  · intro hr
    have hv : versionFromBuild n = some "25H2" := by
      unfold versionFromBuild
      rw [if_pos (by omega)]
    simp only [extractVersion, extractVersionL, h1, h2, h3, hv]
  · intro hr
    have hv : versionFromBuild n = some "24H2" := by
      unfold versionFromBuild
      rw [if_neg (by omega), if_pos (by omega)]
    simp only [extractVersion, extractVersionL, h1, h2, h3, hv]
  · intro m
    unfold versionFromBuild
    split_ifs with a1 a2 a3 a4 a5 a6 <;>
      first
        | exact Option.noConfusion
        | (intro hx; injection hx with hx2; exact String.noConfusion hx2 (by decide))
        | (exfalso; omega)

/-- Claim C9 witness: concrete titles with build numbers 26300 and 26150. -/
theorem extractVersion_range_precedence_witness :
    extractVersion "Windows build (26300.1)" = "25H2" ∧
    extractVersion "Windows x (26150)" = "24H2" :=
  ⟨(extractVersion_range_precedence "Windows build (26300.1)" 26300
      (by decide) (by decide) (by decide)).1 (by decide),
   (extractVersion_range_precedence "Windows x (26150)" 26150
      (by decide) (by decide) (by decide)).2.1 (by decide)⟩

/-- Claim C10 (confirmed): with no explicit version token, a parenthesised
build number in 22631-22999 classifies as `22H2`, not `23H2`: the `22H2`
range 22621-22999 is checked first and fully covers the `23H2` range
22631-22999, so the `23H2` branch is unreachable for every build number. -/
theorem extractVersion_22H2_covers_23H2 (title : String) (n : Nat)
    (h1 : searchVersionToken title.data = none)
    (h2 : searchStandalone title.data = none)
    (h3 : searchBuild title.data = some n) :
    (22631 ≤ n ∧ n < 23000 → extractVersion title = "22H2") ∧
    (∀ m : Nat, versionFromBuild m ≠ some "23H2") := by
  constructor
  · intro hr
    have hv : versionFromBuild n = some "22H2" := by
      unfold versionFromBuild
      rw [if_neg (by omega), if_neg (by omega), if_neg (by omega),
          if_neg (by omega), if_pos (by omega)]
    simp only [extractVersion, extractVersionL, h1, h2, h3, hv]
  · intro m
    unfold versionFromBuild
    split_ifs with a1 a2 a3 a4 a5 a6 <;>
      first
        | exact Option.noConfusion
        | (intro hx; injection hx with hx2; exact String.noConfusion hx2 (by decide))
        | omega

/-- Claim C10 witness: a concrete title carrying build number 22631. -/
theorem extractVersion_22H2_covers_23H2_witness :
    extractVersion "Windows y (22631)" = "22H2" :=
  (extractVersion_22H2_covers_23H2 "Windows y (22631)" 22631
    (by decide) (by decide) (by decide)).1 (by decide)

/-! ## Association-list lemmas about `upsert`, `lookupA` and the dedup folds -/

theorem lookupA_upsert {κ α : Type} [DecidableEq κ] :
    ∀ (m : List (κ × α)) (k : κ) (v : α) (k2 : κ),
      lookupA (upsert m k v) k2 = if k = k2 then some v else lookupA m k2 := by
  intro m k v
  induction m with
  | nil =>
    intro k2
    simp [upsert, lookupA]
  | cons a rest ih =>
    intro k2
    rcases a with ⟨k1, v1⟩
    by_cases h : k1 = k
    · subst h
      simp only [upsert, if_pos rfl, lookupA]
      by_cases h2 : k1 = k2 <;> simp [h2]
    · simp only [upsert, if_neg h, lookupA, ih]
      by_cases h2 : k1 = k2
      · subst h2
        have hk : ¬ k = k1 := fun hh => h hh.symm
        simp [hk]
      · simp [h2]

theorem mem_upsert {κ α : Type} [DecidableEq κ] :
    ∀ (m : List (κ × α)) (k : κ) (v : α) (p : κ × α),
      p ∈ upsert m k v → p ∈ m ∨ p = (k, v) := by
  intro m k v
  induction m with
  | nil =>
    intro p hp
    simp [upsert] at hp
    right
    exact hp
  | cons a rest ih =>
    intro p hp
    rcases a with ⟨k1, v1⟩
    by_cases h : k1 = k
    · subst h
      simp only [upsert, if_pos rfl] at hp
      rcases List.mem_cons.mp hp with h1 | h1
      · right
        simp [h1]
      · left
        exact List.mem_cons_of_mem _ h1
    · simp only [upsert, if_neg h] at hp
      rcases List.mem_cons.mp hp with h1 | h1
      · left
        simp [h1]
      · rcases ih p h1 with h2 | h2
        · left
          exact List.mem_cons_of_mem _ h2
        · right
          exact h2

theorem mem_keys_upsert {κ α : Type} [DecidableEq κ] :
    ∀ (m : List (κ × α)) (k : κ) (v : α) (k2 : κ),
      k2 ∈ (upsert m k v).map Prod.fst ↔ k2 ∈ m.map Prod.fst ∨ k2 = k := by
  intro m k v
  induction m with
  | nil =>
    intro k2
    simp [upsert]
  | cons a rest ih =>
    intro k2
    rcases a with ⟨k1, v1⟩
    by_cases h : k1 = k <;>
      simp [upsert, h, ih, List.mem_cons] <;>
      tauto

theorem nodup_keys_upsert {κ α : Type} [DecidableEq κ] :
    ∀ (m : List (κ × α)) (k : κ) (v : α),
      (m.map Prod.fst).Nodup → ((upsert m k v).map Prod.fst).Nodup := by
  intro m k v
  induction m with
  | nil =>
    intro _
    simp [upsert]
  | cons a rest ih =>
    intro hnd
    rcases a with ⟨k1, v1⟩
    simp only [List.map_cons, List.nodup_cons] at hnd
    by_cases h : k1 = k
    · have he : upsert ((k1, v1) :: rest) k v = (k1, v) :: rest := by
        simp [upsert, h]
      rw [he, List.map_cons, List.nodup_cons]
      exact hnd
    · simp only [upsert, if_neg h, List.map_cons, List.nodup_cons]
      refine ⟨?_, ih hnd.2⟩
      intro hmem
      rcases (mem_keys_upsert rest k v k1).mp hmem with h1 | h1
      · exact hnd.1 h1
      · exact h h1

theorem lookupA_foldl_upsert :
    ∀ (rs : List WindowsRelease) (m : List (Option String × WindowsRelease))
      (id : Option String),
      lookupA (rs.foldl (fun b r => upsert b r.build_id r) m) id =
      rs.foldl (fun acc r => if r.build_id = id then some r else acc) (lookupA m id) := by
  intro rs
  induction rs with
  | nil =>
    intro m id
    rfl
  | cons r rs ih =>
    intro m id
    simp only [List.foldl_cons, ih, lookupA_upsert]

theorem mem_keys_foldl_upsert :
    ∀ (rs : List WindowsRelease) (m : List (Option String × WindowsRelease))
      (id : Option String),
      (id ∈ (rs.foldl (fun b r => upsert b r.build_id r) m).map Prod.fst) ↔
      id ∈ m.map Prod.fst ∨ id ∈ rs.map (fun r => r.build_id) := by
  intro rs
  induction rs with
  | nil =>
    intro m id
    simp
  | cons r rs ih =>
    intro m id
    simp only [List.foldl_cons, ih, mem_keys_upsert, List.map_cons, List.mem_cons]
    tauto

theorem nodup_keys_foldl_upsert :
    ∀ (rs : List WindowsRelease) (m : List (Option String × WindowsRelease)),
      (m.map Prod.fst).Nodup →
      ((rs.foldl (fun b r => upsert b r.build_id r) m).map Prod.fst).Nodup := by
  intro rs
  induction rs with
  | nil =>
    intro m h
    exact h
  | cons r rs ih =>
    intro m h
    exact ih _ (nodup_keys_upsert m r.build_id r h)

theorem coherent_foldl_upsert :
    ∀ (rs : List WindowsRelease) (m : List (Option String × WindowsRelease)),
      (∀ p ∈ m, p.1 = p.2.build_id) →
      ∀ p ∈ rs.foldl (fun b r => upsert b r.build_id r) m, p.1 = p.2.build_id := by
  intro rs
  induction rs with
  | nil =>
    intro m h
    exact h
  | cons r rs ih =>
    intro m h
    refine ih _ ?_
    intro p hp
    rcases mem_upsert m r.build_id r p hp with h1 | h1
    · exact h p h1
    · rw [h1]

theorem mem_foldl_upsert :
    ∀ (rs : List WindowsRelease) (m : List (Option String × WindowsRelease))
      (p : Option String × WindowsRelease),
      p ∈ rs.foldl (fun b r => upsert b r.build_id r) m → p ∈ m ∨ p.2 ∈ rs := by
  intro rs
  induction rs with
  | nil =>
    intro m p hp
    exact Or.inl hp
  | cons r rs ih =>
    intro m p hp
    rcases ih _ p hp with h1 | h1
    · rcases mem_upsert m r.build_id r p h1 with h2 | h2
      · exact Or.inl h2
      · right
        rw [h2]
        exact List.mem_cons_self _ _
    · right
      exact List.mem_cons_of_mem _ h1

theorem lookupA_of_mem_nodup {κ α : Type} [DecidableEq κ] :
    ∀ (m : List (κ × α)) (k : κ) (v : α),
      (m.map Prod.fst).Nodup → (k, v) ∈ m → lookupA m k = some v := by
  intro m
  induction m with
  | nil =>
    intro k v _ hm
    exact absurd hm (List.not_mem_nil _)
  | cons a rest ih =>
    intro k v hnd hm
    rcases a with ⟨k1, v1⟩
    simp only [List.map_cons, List.nodup_cons] at hnd
    rcases List.mem_cons.mp hm with h1 | h1
    · injection h1 with e1 e2
      simp [lookupA, e1.symm, e2.symm]
    · have hk : ¬ k1 = k := by
        intro he
        exact hnd.1 (he ▸ (List.mem_map_of_mem Prod.fst h1))
      simp only [lookupA, if_neg hk]
      exact ih k v hnd.2 h1

theorem foldl_hit_of_unique :
    ∀ (l : List WindowsRelease) (id : Option String) (r : WindowsRelease)
      (init : Option WindowsRelease),
      ((l.map fun x => x.build_id).Nodup) → r ∈ l → r.build_id = id →
      l.foldl (fun acc x => if x.build_id = id then some x else acc) init = some r := by
  intro l
  induction l with
  | nil =>
    intro id r init _ hm
    exact absurd hm (List.not_mem_nil _)
  | cons x l ih =>
    intro id r init hnd hm hid
    simp only [List.map_cons, List.nodup_cons] at hnd
    rcases List.mem_cons.mp hm with h1 | h1
    · subst h1
      simp only [List.foldl_cons, if_pos hid]
      have hno : ∀ y ∈ l, ¬ (y.build_id = id) := by
        intro y hy he
        exact hnd.1 (hid ▸ he ▸ List.mem_map_of_mem (fun z => z.build_id) hy)
      clear hnd hm ih hid
      induction l with
      | nil => rfl
      | cons y l ih2 =>
        simp only [List.foldl_cons, if_neg (hno y (List.mem_cons_self _ _))]
        exact ih2 (fun z hz => hno z (List.mem_cons_of_mem _ hz))
    · have hx : ¬ (x.build_id = id) := by
        intro he
        exact hnd.1 (he ▸ hid ▸ List.mem_map_of_mem (fun z => z.build_id) h1)
      simp only [List.foldl_cons, if_neg hx]
      exact ih id r init hnd.2 h1 hid

/-- Claim C6 (confirmed): within one (forced) `detect_new_releases` call the
aggregation deduplicates by identifier with last-seen-wins semantics: the
identifiers of the returned list are pairwise distinct and cover exactly the
identifiers collected across all sources, and every returned release — both
in the list and in the final tracking state under its identifier — is the
record produced last in source iteration order for that identifier. -/
theorem detect_dedup_last_wins (now : Int) (state : TrackedData)
    (sources : List (Except String (List WindowsRelease))) :
    ((detectNewReleases true now state sources).newReleases.map
        (fun r => r.build_id)).Nodup ∧
    (∀ id : Option String,
      id ∈ (collectSources sources).map (fun r => r.build_id) ↔
      id ∈ (detectNewReleases true now state sources).newReleases.map
        (fun r => r.build_id)) ∧
    (∀ r, r ∈ (detectNewReleases true now state sources).newReleases →
      lastWith (fun x => x.build_id = r.build_id) (collectSources sources) = some r ∧
      lookupA (detectNewReleases true now state sources).finalState.builds
        r.build_id = some r) := by
  have hd : detectNewReleases true now state sources = detectCore now state sources := by
    simp [detectNewReleases, shouldSkip]
  rw [hd]
  have hcoh : ∀ p ∈ dedupById (collectSources sources), p.1 = p.2.build_id := by
    refine coherent_foldl_upsert (collectSources sources) [] ?_
    intro p hp
    exact absurd hp (List.not_mem_nil _)
  have hnd : ((dedupById (collectSources sources)).map Prod.fst).Nodup := by
    refine nodup_keys_foldl_upsert (collectSources sources) [] ?_
    simp
  have hmapids : ((dedupById (collectSources sources)).map Prod.snd).map
      (fun r => r.build_id) = (dedupById (collectSources sources)).map Prod.fst := by
    rw [List.map_map]
    exact List.map_congr_left (fun p hp => (hcoh p hp).symm)
  refine ⟨?_, ?_, ?_⟩
  · show (((dedupById (collectSources sources)).map Prod.snd).map
      (fun r => r.build_id)).Nodup
    rw [hmapids]
    exact hnd
  · intro id
    show id ∈ (collectSources sources).map (fun r => r.build_id) ↔
      id ∈ ((dedupById (collectSources sources)).map Prod.snd).map (fun r => r.build_id)
    rw [hmapids]
    simp only [dedupById, mem_keys_foldl_upsert]
    simp
  · intro r hr
    have hr2 : r ∈ (dedupById (collectSources sources)).map Prod.snd := hr
    obtain ⟨p, hp, hps⟩ := List.mem_map.mp hr2
    have hp1 : p.1 = r.build_id := by rw [hcoh p hp, hps]
    have hpair : (r.build_id, r) ∈ dedupById (collectSources sources) := by
      have hpe : p = (r.build_id, r) := Prod.ext hp1 hps
      rw [← hpe]
      exact hp
    have hlk : lookupA (dedupById (collectSources sources)) r.build_id = some r :=
      lookupA_of_mem_nodup _ _ _ hnd hpair
    have hbridge : lastWith (fun x => x.build_id = r.build_id) (collectSources sources) =
        lookupA (dedupById (collectSources sources)) r.build_id :=
      (lookupA_foldl_upsert (collectSources sources) [] r.build_id).symm
    constructor
    · rw [hbridge]
      exact hlk
    · show lookupA (((dedupById (collectSources sources)).map Prod.snd).foldl
        (fun b r2 => upsert b r2.build_id r2) state.builds) r.build_id = some r
      rw [lookupA_foldl_upsert]
      refine foldl_hit_of_unique _ _ _ _ ?_ hr2 rfl
      rw [hmapids]
      exact hnd

/-- Claim C6 witness: two sources disagree on identifier `a`; the retained
record is the one the later source produced, both in the returned list and
in the saved tracking state. -/
theorem detect_dedup_last_wins_witness :
    lastWith (fun x => x.build_id = c6RelA2.build_id) (collectSources c6Sources) =
      some c6RelA2 ∧
    lookupA (detectNewReleases true 0 c6State c6Sources).finalState.builds
      c6RelA2.build_id = some c6RelA2 :=
  (detect_dedup_last_wins 0 c6State c6Sources).2.2 c6RelA2 (by decide)

theorem checkUupdump_not_tracked (tracked : TrackedData)
    (buildsData : List (String × BuildEntry)) (now : Int) :
    ∀ r ∈ checkUupdump tracked buildsData now,
      r.build_id ∉ tracked.builds.map Prod.fst := by
  intro r hr
  obtain ⟨key, hkey, hpk⟩ := List.mem_filterMap.mp hr
  unfold processKey at hpk
  split at hpk
  · exact Option.noConfusion hpk
  · split at hpk
    · exact Option.noConfusion hpk
    · split at hpk
      · exact Option.noConfusion hpk
      · rename_i b hb hcond htr
        injection hpk with he
        intro hmem
        apply htr
        rw [← he] at hmem
        exact hmem

/-- Claim C2 (corrected): already-tracked identifiers are dropped by the UUP
Dump fetcher itself — it skips every build whose identifier is present in
the tracking state at the start of the call — so a detect call fed by that
fetcher returns no release with an already-tracked identifier.  The
aggregation step of `detect_new_releases` performs no tracked-identifier
filtering of its own: a source that directly yields an already-tracked
record has it returned (see the counterexample). -/
theorem uupdump_drops_tracked (state : TrackedData)
    (buildsData : List (String × BuildEntry)) (fetchTime callTime : Int) :
    ∀ r ∈ (detectNewReleases true callTime state
        [Except.ok (checkUupdump state buildsData fetchTime)]).newReleases,
      r.build_id ∉ state.builds.map Prod.fst := by
  intro r hr
  have hd : detectNewReleases true callTime state
      [Except.ok (checkUupdump state buildsData fetchTime)] =
      detectCore callTime state
        [Except.ok (checkUupdump state buildsData fetchTime)] := by
    simp [detectNewReleases, shouldSkip]
  rw [hd] at hr
  have hr2 : r ∈ (dedupById (collectSources
      [Except.ok (checkUupdump state buildsData fetchTime)])).map Prod.snd := hr
  obtain ⟨p, hp, hps⟩ := List.mem_map.mp hr2
  have hmem : p.2 ∈ collectSources
      [Except.ok (checkUupdump state buildsData fetchTime)] := by
    rcases mem_foldl_upsert _ [] p hp with h1 | h1
    · exact absurd h1 (List.not_mem_nil _)
    · exact h1
  have hcs : collectSources [Except.ok (checkUupdump state buildsData fetchTime)] =
      checkUupdump state buildsData fetchTime := rfl
  rw [hcs] at hmem
  rw [← hps]
  exact checkUupdump_not_tracked state buildsData fetchTime p.2 hmem

/-- Claim C2 witness: with entry `u1` already tracked and `u2` new, the
detect call fed by the fetcher returns only `u2`, whose identifier is not in
the starting tracking state. -/
theorem uupdump_drops_tracked_witness :
    c2aNew.build_id ∉ c2aState.builds.map Prod.fst :=
  uupdump_drops_tracked c2aState c2aBuilds 0 0 c2aNew (by decide)

/-! ## Claim C7 — the build matrix -/

/-- Claim C7 (confirmed): `generate_matrix` on N releases produces exactly
N × 3 × 2 = 6N entries; every entry carries edition code 1 named `Home` or
edition code 6 named `Pro`, one of the three build variants, and the
version, build number, URL and title slug (spaces to underscores,
parentheses stripped) of one of the input releases. -/
theorem generateMatrix_spec (rs : List WindowsRelease) :
    (generateMatrix rs).length = rs.length * 6 ∧
    ∀ e, e ∈ generateMatrix rs →
      ((e.edition = 1 ∧ e.edition_name = "Home") ∨
       (e.edition = 6 ∧ e.edition_name = "Pro")) ∧
      e.build_type ∈ (["standard", "core", "nano"] : List String) ∧
      ∃ r, r ∈ rs ∧ e.version = r.version ∧ e.build = r.build_number ∧
        e.iso_url = r.iso_url ∧ e.title = slugify r.title := by
  constructor
  · induction rs with
    | nil => rfl
    | cons r rs ih =>
      simp only [generateMatrix] at ih ⊢
      rw [List.flatMap_cons, List.length_append, ih]
      simp only [List.flatMap_cons, List.flatMap_nil, List.length_append,
        List.length_map, List.length_cons, List.length_nil, List.append_nil]
      omega
  · intro e he
    simp only [generateMatrix, List.mem_flatMap, List.mem_map] at he
    obtain ⟨r, hr, bt, hbt, ed, hed, he4⟩ := he
    subst he4
    refine ⟨?_, hbt, r, hr, rfl, rfl, rfl, rfl⟩
    rcases (by simpa using hed : ed = 1 ∨ ed = 6) with h | h <;> subst h
    · left
      exact ⟨rfl, rfl⟩
    · right
      exact ⟨rfl, rfl⟩

/-- Claim C7 witness: one release yields 6 entries, and the first entry is
the Home-edition standard variant with the slugged title. -/
theorem generateMatrix_spec_witness :
    (generateMatrix [c7Rel]).length = 1 * 6 ∧
    ((c7Entry.edition = 1 ∧ c7Entry.edition_name = "Home") ∨
     (c7Entry.edition = 6 ∧ c7Entry.edition_name = "Pro")) :=
  ⟨(generateMatrix_spec [c7Rel]).1,
   ((generateMatrix_spec [c7Rel]).2 c7Entry (by decide)).1⟩
